import Mathlib

/-!
Verification of the `lcache` library (an in-process read-through LRU cache
with approximate-LRU sampling eviction and asynchronous refresh).

The Go sources are shallowly embedded:

* `time.Time` is modelled as `Int` (an absolute timestamp);
  `t1.Before t2` is `t1 < t2` and `t1.After t2` is `t1 > t2`.
* `interface{}` payloads are `GoValue` (enough constructors for the
  values the library itself produces: `nil`, integers, strings).
* Go `error` values are modelled by their message strings (`GoErr`);
  `nil` errors are `Option.none`.
* The sharded `ConcurrentMap` is modelled at its interface
  (`Get`/`Set`/`Del`/`Len`) by an association list; `Len` is modelled as
  the converged entry count (the Go code aggregates count deltas
  asynchronously, which only changes when `Len` observes a mutation,
  not the converged value).
* Run-time faults of the Go program (nil-pointer dereference, slice
  index out of range, channel misuse) are made explicit: an operation
  that can fault returns `Except GoFault _`.
* Pointer mutation of a `cacheEntry` held in the map is modelled by
  writing the updated record back into the association list.
* Goroutine scheduling is out of scope; the loop body of the refresh worker
  is modelled as a state transformer over the sequence of keys it
  receives from the channel.
-/

set_option autoImplicit false

namespace LCache

/-- Payload values stored in the cache (Go `interface{}`). -/
inductive GoValue where
  | nil
  | intV (n : Int)
  | strV (s : String)
  deriving DecidableEq, Repr

/-- Go `error` values, identified by their message. -/
abbrev GoErr := String

/-- `var refreshErrEntryNotFound = errors.New("entry not found")` -/
def refreshErrEntryNotFound : GoErr := "entry not found"

/-- `var refreshErrNotEnabled = errors.New("cache is not configured with graceful refresh")` -/
def refreshErrNotEnabled : GoErr := "cache is not configured with graceful refresh"

/-- `var refreshErrNoLoader = errors.New("cache is not configured with a loader")` -/
def refreshErrNoLoader : GoErr := "cache is not configured with a loader"

/-- Run-time faults (Go panics) that the embedded code can hit. -/
inductive GoFault where
  | nilDeref
  | indexOutOfRange
  | sendOnClosedChannel
  | closeNilChannel
  | closeClosedChannel
  deriving DecidableEq, Repr

/-- A `Loader`: `Load(key string) (interface{}, error)`. -/
abbrev LoaderFn := String → GoValue × Option GoErr

/-- `cacheEntry` from entry.go. -/
structure cacheEntry where
  value : GoValue
  expiration : Int
  lastUsed : Int
  refreshing : Bool
  refreshError : Option GoErr
  deriving DecidableEq, Repr

/-- `updateTimestamps` from entry.go: sets `lastUsed` to the current time
and, when `expireAfter > 0`, sets `expiration` to `lastUsed + expireAfter`.
The current time is passed in as `now`. -/
def updateTimestamps (e : cacheEntry) (expireAfter : Int) (now : Int) : cacheEntry :=
  let e1 := { e with lastUsed := now }
  if expireAfter > 0 then { e1 with expiration := e1.lastUsed + expireAfter } else e1

/-- `evictableEntry` from eviction.go.  The `value` field is a Go pointer
(`*cacheEntry`) and can be nil: a zero-valued pool slot holds a nil
pointer, modelled by `Option.none`. -/
structure evictableEntry where
  key : String
  value : Option cacheEntry
  deriving DecidableEq, Repr

/-- The refresh channel: buffered keys plus a closed flag. -/
structure Chan where
  buf : List String
  closed : Bool
  deriving DecidableEq, Repr

/-- `ch <- key`: panics when the channel is closed, otherwise appends to
the buffer.  (Blocking on a full 32-slot buffer is a scheduling concern
and is not modelled.) -/
def chanSend (ch : Chan) (key : String) : Except GoFault Chan :=
  if ch.closed = true then .error .sendOnClosedChannel
  else .ok { ch with buf := ch.buf ++ [key] }

/-- `Params` from cache.go.  The `uint32` fields are modelled as `Nat`. -/
structure Params where
  loader : Option LoaderFn
  expireAfterWrite : Int
  expireAfterRead : Int
  maximumEntries : Nat
  evictionPoolSize : Nat
  evictionSampleSize : Nat
  numShards : Nat
  gracefulRefresh : Bool

/-- The `cache` struct from cache.go.  `entries` is the `ConcurrentMap`
modelled as an association list; `evictionPoolTop` is a Go `int`. -/
structure CacheState where
  params : Params
  entries : List (String × cacheEntry)
  refreshes : Option Chan
  evictionPool : List evictableEntry
  evictionPoolTop : Int

/-! ### The map interface (`ConcurrentMap` `Get`/`Set`/`Del`/`Len`) -/

/-- `entries.Get key` (lookup). -/
def mapGet (m : List (String × cacheEntry)) (k : String) : Option cacheEntry :=
  match m with
  | [] => none
  | (k', v) :: rest => if k' = k then some v else mapGet rest k

/-- `entries.Set key v` (insert or replace). -/
def mapSet (m : List (String × cacheEntry)) (k : String) (v : cacheEntry) :
    List (String × cacheEntry) :=
  match m with
  | [] => [(k, v)]
  | (k', v') :: rest => if k' = k then (k, v) :: rest else (k', v') :: mapSet rest k v

/-- `entries.Del key` / `delete(m, key)`. -/
def mapDel (m : List (String × cacheEntry)) (k : String) : List (String × cacheEntry) :=
  match m with
  | [] => []
  | (k', v') :: rest => if k' = k then mapDel rest k else (k', v') :: mapDel rest k

@[simp] theorem mapGet_mapSet_self (m : List (String × cacheEntry)) (k : String)
    (v : cacheEntry) : mapGet (mapSet m k v) k = some v := by
  induction m with
  | nil => simp [mapGet, mapSet]
  | cons p rest ih =>
    obtain ⟨k', v'⟩ := p
    by_cases h : k' = k <;> simp [mapGet, mapSet, h, ih]

@[simp] theorem mapGet_mapDel_self (m : List (String × cacheEntry)) (k : String) :
    mapGet (mapDel m k) k = none := by
  induction m with
  | nil => simp [mapGet, mapDel]
  | cons p rest ih =>
    obtain ⟨k', v'⟩ := p
    by_cases h : k' = k <;> simp [mapGet, mapDel, h, ih]

theorem mapSet_length_of_get_none (m : List (String × cacheEntry)) (k : String)
    (v : cacheEntry) (h : mapGet m k = none) :
    (mapSet m k v).length = m.length + 1 := by
  induction m with
  | nil => simp [mapSet]
  | cons p rest ih =>
    obtain ⟨k', v'⟩ := p
    by_cases hk : k' = k
    · simp [mapGet, hk] at h
    · simp [mapGet, hk] at h
      simp [mapSet, hk, ih h]

/-! ### Go slice indexing with an `int` index -/

/-- Read `l[i]` with a Go `int` index: panics (faults) out of range. -/
def getAtI {α : Type} (l : List α) (i : Int) : Except GoFault α :=
  if 0 ≤ i then
    match l.get? i.toNat with
    | some a => .ok a
    | none => .error .indexOutOfRange
  else .error .indexOutOfRange

/-- Write `l[i] = a` with a Go `int` index: panics (faults) out of range. -/
def setAtI {α : Type} (l : List α) (i : Int) (a : α) : Except GoFault (List α) :=
  if 0 ≤ i ∧ i < (l.length : Int) then .ok (l.set i.toNat a)
  else .error .indexOutOfRange

/-! ### Eviction (eviction.go, `removeLRU`)

The Go code iterates the entry map in (randomized) map-range order; the
association list order stands for one such iteration order.  All
conclusions below hold for every order. -/

/-- The pool-replacement scan of eviction.go lines 33-38: once the pool is
full, walk the pool and replace the **first** slot whose entry was used
more recently than (`lastUsed.After`) the sample; if no slot is newer the
sample is discarded.  Dereferencing a nil `*cacheEntry` faults. -/
def poolReplaceAux (pool : List evictableEntry) (s : evictableEntry) :
    Except GoFault (List evictableEntry) :=
  match pool with
  | [] => .ok []
  | e :: rest =>
    match e.value with
    | none => .error .nilDeref
    | some ev =>
      match s.value with
      | none => .error .nilDeref
      | some sv =>
        if ev.lastUsed > sv.lastUsed then .ok (s :: rest)
        else
          match poolReplaceAux rest s with
          | .error f => .error f
          | .ok rest' => .ok (e :: rest')

/-- The sampling pass of eviction.go lines 20-47: draw entries in map
order; while the pool has free capacity append at `evictionPoolTop`,
otherwise run the replacement scan; stop after `EvictionSampleSize`
draws (the counter `i` is incremented before the bound check). -/
def sampleLoop (sampleSize : Nat) :
    List (String × cacheEntry) → List evictableEntry → Int → Nat →
    Except GoFault (List evictableEntry × Int)
  | [], pool, top, _ => .ok (pool, top)
  | (k, v) :: rest, pool, top, i =>
    let sample : evictableEntry := ⟨k, some v⟩
    let step : Except GoFault (List evictableEntry × Int) :=
      if top < (pool.length : Int) then
        match setAtI pool top sample with
        | .error f => .error f
        | .ok pool' => .ok (pool', top + 1)
      else
        match poolReplaceAux pool sample with
        | .error f => .error f
        | .ok pool' => .ok (pool', top)
    match step with
    | .error f => .error f
    | .ok (pool', top') =>
      if i + 1 ≥ sampleSize then .ok (pool', top')
      else sampleLoop sampleSize rest pool' top' (i + 1)

/-- The victim-selection scan of eviction.go lines 49-55: find the entry
of the full pool slice with the oldest `lastUsed`.  `oldest` starts as
the zero value of `evictableEntry` (nil entry pointer); `removableIdx`
starts as `0`.  Dereferencing a nil entry faults. -/
def selectLoop :
    List evictableEntry → evictableEntry → Int → Nat →
    Except GoFault (evictableEntry × Int)
  | [], oldest, idx, _ => .ok (oldest, idx)
  | e :: rest, oldest, idx, z =>
    match e.value with
    | none => .error .nilDeref
    | some ev =>
      match oldest.value with
      | none => .error .nilDeref
      | some ov =>
        if ev.lastUsed < ov.lastUsed then selectLoop rest e (z : Int) (z + 1)
        else selectLoop rest oldest idx (z + 1)

/-- `removeLRU` from eviction.go: sampling pass, victim selection over
the whole pool slice, pool compaction
(`evictionPool[removableIdx] = evictionPool[evictionPoolTop]`, then
`evictionPoolTop--`), and deletion of the victim from the map. -/
def removeLRU (c : CacheState) : Except GoFault CacheState :=
  match sampleLoop c.params.evictionSampleSize c.entries c.evictionPool c.evictionPoolTop 0 with
  | .error f => .error f
  | .ok (pool, top) =>
    match selectLoop pool ⟨"", none⟩ 0 0 with
    | .error f => .error f
    | .ok (oldest, removableIdx) =>
      match getAtI pool top with
      | .error f => .error f
      | .ok tail =>
        match setAtI pool removableIdx tail with
        | .error f => .error f
        | .ok pool' =>
          .ok { c with
                entries := mapDel c.entries oldest.key,
                evictionPool := pool',
                evictionPoolTop := top - 1 }

/-- The victim-selection scan faults at its very first slot: `oldest`
still holds a nil entry pointer (and an unoccupied slot also holds one). -/
theorem selectLoop_cons_nilInit (e : evictableEntry) (rest : List evictableEntry)
    (idx : Int) (z : Nat) :
    selectLoop (e :: rest) ⟨"", none⟩ idx z = .error .nilDeref := by
  cases h : e.value <;> simp [selectLoop, h]

theorem getAtI_nil {α : Type} (i : Int) :
    getAtI ([] : List α) i = .error .indexOutOfRange := by
  by_cases h : (0 : Int) ≤ i <;> simp [getAtI, h]

/-- `removeLRU` can never return normally: either the sampling pass
faults, or (pool slice non-empty) the selection scan dereferences the
nil zero-valued `oldest`, or (pool slice empty) the compaction read
`evictionPool[evictionPoolTop]` is out of range. -/
theorem removeLRU_isError (c : CacheState) : ∃ f, removeLRU c = .error f := by
  unfold removeLRU
  cases hs : sampleLoop c.params.evictionSampleSize c.entries c.evictionPool
      c.evictionPoolTop 0 with
  | error f => exact ⟨f, rfl⟩
  | ok r =>
    obtain ⟨pool, top⟩ := r
    cases pool with
    | nil => simp [selectLoop, getAtI_nil]
    | cons e rest => simp [selectLoop_cons_nilInit]

/-! ### The cache orchestrator (cache.go) -/

/-- The default-filling part of `NewCache` (cache.go lines 45-61):
`MaximumEntries` defaults to 4096, `EvictionPoolSize` is clamped up to 8
and then up to `EvictionSampleSize`, `NumShards` is clamped up to 16. -/
def defaultedParams (p : Params) : Params :=
  let maxE := if p.maximumEntries = 0 then 4096 else p.maximumEntries
  let ps1 := if p.evictionPoolSize ≤ 8 then 8 else p.evictionPoolSize
  let ps2 := if ps1 < p.evictionSampleSize then p.evictionSampleSize else ps1
  let ns := if p.numShards < 16 then 16 else p.numShards
  { p with maximumEntries := maxE, evictionPoolSize := ps2, numShards := ns }

/-- `NewCache` (cache.go lines 42-81): applies the defaults, allocates
the refresh channel only when `GracefulRefresh` is set, and allocates a
zero-valued eviction pool of `EvictionPoolSize` slots (each slot a nil
`*cacheEntry`).  The goroutine it spawns to run `RunRefresh` is a
scheduling concern and is not part of the state. -/
def newCache (p0 : Params) : CacheState :=
  let p := defaultedParams p0
  { params := p
    entries := []
    refreshes := if p.gracefulRefresh then some ⟨[], false⟩ else none
    evictionPool := List.replicate p.evictionPoolSize ⟨"", none⟩
    evictionPoolTop := 0 }

/-- `Get` (cache.go lines 83-139).  Returns the value, the returned
error, the post-state, and the number of `Loader.Load` invocations made
by this call.  `now` is the `time.Now().UTC()` read at the top. -/
def cacheGet (c : CacheState) (key : String) (now : Int) :
    Except GoFault (GoValue × Option GoErr × CacheState × Nat) :=
  match mapGet c.entries key with
  | some entry =>
    match entry.refreshError with
    | some err =>
      -- refresh failed last time: delete and hand the error back
      .ok (entry.value, some err, { c with entries := mapDel c.entries key }, 0)
    | none =>
      if entry.expiration < now then
        match c.refreshes with
        | none =>
          -- refresh not available, remove; still return the stale value
          .ok (entry.value, none, { c with entries := mapDel c.entries key }, 0)
        | some ch =>
          if entry.refreshing = true then
            .ok (entry.value, none, c, 0)
          else
            -- mark refreshing (pointer mutation) and enqueue the key
            match chanSend ch key with
            | .error f => .error f
            | .ok ch' =>
              .ok (entry.value, none,
                { c with entries := mapSet c.entries key { entry with refreshing := true },
                         refreshes := some ch' }, 0)
      else
        .ok (entry.value, none, c, 0)
  | none =>
    match c.params.loader with
    | some load =>
      match load key with
      | (_, some err) =>
        -- `return 0, err`: the Go code returns the untyped constant 0
        .ok (GoValue.intV 0, some err, c, 1)
      | (v, none) =>
        let entry := updateTimestamps ⟨v, 0, 0, false, none⟩ c.params.expireAfterWrite now
        if c.entries.length ≥ c.params.maximumEntries then
          match removeLRU c with
          | .error f => .error f
          | .ok c' => .ok (v, none, { c' with entries := mapSet c'.entries key entry }, 1)
        else
          .ok (v, none, { c with entries := mapSet c.entries key entry }, 1)
    | none => .ok (GoValue.nil, none, c, 0)

/-- `Set` (cache.go lines 142-167): on a hit, mutate the existing entry
in place (fresh value, `expiration = now + ExpireAfterWrite`,
`lastUsed = now`, cleared refresh state) and return; on a miss, insert a
fresh entry and then evict if the map length reached `MaximumEntries`. -/
def cacheSet (c : CacheState) (key : String) (val : GoValue) (now : Int) :
    Except GoFault (Option GoErr × CacheState) :=
  let fresh : cacheEntry := ⟨val, now + c.params.expireAfterWrite, now, false, none⟩
  match mapGet c.entries key with
  | some _ => .ok (none, { c with entries := mapSet c.entries key fresh })
  | none =>
    let c' := { c with entries := mapSet c.entries key fresh }
    if c'.entries.length ≥ c.params.maximumEntries then
      match removeLRU c' with
      | .error f => .error f
      | .ok c'' => .ok (none, c'')
    else .ok (none, c')

/-- The body of the consuming loop of `RunRefresh` (cache.go lines 184-206)
for one dequeued key.  A missing entry is skipped (`entry == nil`; the
`!found` branch is unreachable because the map `Get` returns a nil entry
exactly when the key is absent).  On loader error the error is stored on
the entry and `refreshing` is left as-is; on success the value is
replaced and the refresh state cleared — the timestamps are not touched. -/
def refreshStep (load : LoaderFn) (c : CacheState) (key : String) : CacheState :=
  match mapGet c.entries key with
  | none => c
  | some entry =>
    match load key with
    | (_, some err) =>
      { c with entries := mapSet c.entries key { entry with refreshError := some err } }
    | (v, none) =>
      let entry' := { entry with value := v, refreshing := false, refreshError := none }
      { c with entries := mapSet c.entries key entry' }

/-- `RunRefresh` (cache.go lines 175-209): fails when refresh was not
enabled or no loader is configured; otherwise consumes keys until the
channel is closed and drained, then returns nil.  `received` is the
sequence of keys the loop receives before the channel close takes
effect. -/
def runRefresh (c : CacheState) (received : List String) : Option GoErr × CacheState :=
  match c.refreshes with
  | none => (some refreshErrNotEnabled, c)
  | some _ =>
    match c.params.loader with
    | none => (some refreshErrNoLoader, c)
    | some load => (none, received.foldl (refreshStep load) c)

/-- `StopRefresh` (cache.go lines 212-214): unconditionally
`close(this.refreshes)`.  Closing a nil channel panics, as does closing
an already-closed one. -/
def stopRefresh (c : CacheState) : Except GoFault CacheState :=
  match c.refreshes with
  | none => .error .closeNilChannel
  | some ch =>
    if ch.closed = true then .error .closeClosedChannel
    else .ok { c with refreshes := some { ch with closed := true } }

/-! ### Behaviour of `Get`/`Set` on each path (case lemmas) -/

theorem cacheGet_hit_refreshError (c : CacheState) (k : String) (now : Int)
    (e : cacheEntry) (err : GoErr)
    (he : mapGet c.entries k = some e) (herr : e.refreshError = some err) :
    cacheGet c k now = .ok (e.value, some err, { c with entries := mapDel c.entries k }, 0) := by
  simp [cacheGet, he, herr]

theorem cacheGet_hit_fresh (c : CacheState) (k : String) (now : Int) (e : cacheEntry)
    (he : mapGet c.entries k = some e) (herr : e.refreshError = none)
    (hexp : ¬ e.expiration < now) :
    cacheGet c k now = .ok (e.value, none, c, 0) := by
  simp [cacheGet, he, herr, hexp]

theorem cacheGet_hit_expired_norefresh (c : CacheState) (k : String) (now : Int)
    (e : cacheEntry)
    (he : mapGet c.entries k = some e) (herr : e.refreshError = none)
    (hexp : e.expiration < now) (hr : c.refreshes = none) :
    cacheGet c k now = .ok (e.value, none, { c with entries := mapDel c.entries k }, 0) := by
  simp [cacheGet, he, herr, hexp, hr]

theorem cacheGet_hit_expired_enqueue (c : CacheState) (k : String) (now : Int)
    (e : cacheEntry) (ch : Chan)
    (he : mapGet c.entries k = some e) (herr : e.refreshError = none)
    (hexp : e.expiration < now) (hr : c.refreshes = some ch)
    (hcl : ch.closed = false) (hrf : e.refreshing = false) :
    cacheGet c k now = .ok (e.value, none,
      { c with entries := mapSet c.entries k { e with refreshing := true },
               refreshes := some ⟨ch.buf ++ [k], false⟩ }, 0) := by
  simp [cacheGet, he, herr, hexp, hr, hrf, chanSend, hcl]

theorem cacheGet_hit_expired_alreadyRefreshing (c : CacheState) (k : String) (now : Int)
    (e : cacheEntry) (ch : Chan)
    (he : mapGet c.entries k = some e) (herr : e.refreshError = none)
    (hexp : e.expiration < now) (hr : c.refreshes = some ch)
    (hrf : e.refreshing = true) :
    cacheGet c k now = .ok (e.value, none, c, 0) := by
  simp [cacheGet, he, herr, hexp, hr, hrf]

theorem cacheGet_miss_noLoader (c : CacheState) (k : String) (now : Int)
    (he : mapGet c.entries k = none) (hl : c.params.loader = none) :
    cacheGet c k now = .ok (GoValue.nil, none, c, 0) := by
  simp [cacheGet, he, hl]

theorem cacheGet_miss_loadError (c : CacheState) (k : String) (now : Int)
    (load : LoaderFn) (v : GoValue) (err : GoErr)
    (he : mapGet c.entries k = none) (hl : c.params.loader = some load)
    (hload : load k = (v, some err)) :
    cacheGet c k now = .ok (GoValue.intV 0, some err, c, 1) := by
  simp [cacheGet, he, hl, hload]

theorem cacheGet_miss_loadOk (c : CacheState) (k : String) (now : Int)
    (load : LoaderFn) (v : GoValue)
    (he : mapGet c.entries k = none) (hl : c.params.loader = some load)
    (hload : load k = (v, none)) (hcap : c.entries.length < c.params.maximumEntries) :
    cacheGet c k now = .ok (v, none,
      { c with
        entries := mapSet c.entries k (updateTimestamps ⟨v, 0, 0, false, none⟩ c.params.expireAfterWrite now) },
      1) := by
  have hcap' : ¬ c.entries.length ≥ c.params.maximumEntries := by omega
  simp [cacheGet, he, hl, hload, hcap']

/-- A `Set` that returns normally always leaves a freshly-timestamped
entry under the key: `lastUsed = now`,
`expiration = now + ExpireAfterWrite`, refresh state cleared. -/
theorem cacheSet_ok_lookup (c : CacheState) (k : String) (v : GoValue) (now : Int)
    (r : Option GoErr) (c' : CacheState)
    (h : cacheSet c k v now = .ok (r, c')) :
    mapGet c'.entries k = some ⟨v, now + c.params.expireAfterWrite, now, false, none⟩ := by
  unfold cacheSet at h
  cases he : mapGet c.entries k with
  | some e =>
    simp [he] at h
    obtain ⟨-, h2⟩ := h
    rw [← h2]
    simp
  | none =>
    simp [he] at h
    by_cases hcap : (mapSet c.entries k ⟨v, now + c.params.expireAfterWrite, now, false, none⟩).length ≥ c.params.maximumEntries
    · simp [hcap] at h
      obtain ⟨f, hf⟩ := removeLRU_isError
        { c with entries := mapSet c.entries k ⟨v, now + c.params.expireAfterWrite, now, false, none⟩ }
      simp [hf] at h
    · simp [hcap] at h
      obtain ⟨-, h2⟩ := h
      rw [← h2]
      simp

/-- A `Set` that returns normally does not touch the refresh channel. -/
theorem cacheSet_ok_refreshes (c : CacheState) (k : String) (v : GoValue) (now : Int)
    (r : Option GoErr) (c' : CacheState)
    (h : cacheSet c k v now = .ok (r, c')) : c'.refreshes = c.refreshes := by
  unfold cacheSet at h
  cases he : mapGet c.entries k with
  | some e =>
    simp [he] at h
    obtain ⟨-, h2⟩ := h
    rw [← h2]
  | none =>
    simp [he] at h
    by_cases hcap : (mapSet c.entries k ⟨v, now + c.params.expireAfterWrite, now, false, none⟩).length ≥ c.params.maximumEntries
    · simp [hcap] at h
      obtain ⟨f, hf⟩ := removeLRU_isError
        { c with entries := mapSet c.entries k ⟨v, now + c.params.expireAfterWrite, now, false, none⟩ }
      simp [hf] at h
    · simp [hcap] at h
      obtain ⟨-, h2⟩ := h
      rw [← h2]

/-! ### Shard routing (concurrentMap, `hash` and `jumphash`)

`cmap.hash` calls the runtime hash `memhash(p, 0, s)`, which hashes the
`s` bytes in memory starting at address `p`.  The code passes
`unsafe.Pointer(&key)` — the address of the *string header* (on amd64:
8 little-endian bytes of the data pointer followed by 8 little-endian
bytes of the length) — not the address of the string bytes.  To state
what the code computes we therefore model a Go string value as its
header plus content, and `memhash` as an arbitrary pure function of the
byte region it is given (the runtime hash is external to this
repository). -/

/-- A Go string value: the address held by the data pointer of its header, and
the content bytes.  Two strings are *equal as Go strings* iff their
`content`s are equal; the `addr` is where the backing bytes live. -/
structure GoString where
  addr : Nat
  content : List Nat
  deriving DecidableEq, Repr

/-- The 8 little-endian bytes of a 64-bit word. -/
def leBytes8 (n : Nat) : List Nat :=
  (List.range 8).map fun i => n / 256 ^ i % 256

/-- The 16 header bytes of a string with data pointer `dataAddr` and
length `len` (amd64 layout: pointer, then length). -/
def stringHeaderBytes (dataAddr len : Nat) : List Nat :=
  leBytes8 dataAddr ++ leBytes8 len

/-- The byte region `memhash(unsafe.Pointer(&s), 0, size)` reads: the
first `size` bytes of the string header sitting at `&s`. -/
def headerRegion (dataAddr len size : Nat) : List Nat :=
  (stringHeaderBytes dataAddr len).take size

/-- One turn of the `jumphash` loop body (part_005 lines 182-183): the
64-bit key is multiplied by 2862933555777941757 and incremented
(mod 2^64), and the next `j` is `(b+1) * 2^31 / ((key >> 33) + 1)`,
computed in the non-negative range of `int64` (no overflow:
`b+1 ≤ shards < 2^32`, so the product stays below `2^63`).  Returns
the new key and the new `j`. -/
def jumpStep (key j : Nat) : Nat × Nat :=
  ((key * 2862933555777941757 + 1) % 2 ^ 64,
   (j + 1) * 2 ^ 31 / ((key * 2862933555777941757 + 1) % 2 ^ 64 / 2 ^ 33 + 1))

/-- The `jumphash` loop (part_005 lines 180-185), fuelled.  The
parameter `j` holds the current value of `b`; the loop exits when the
next `j` reaches `shards`.  `jumphashLoop_fuel_irrelevant` shows fuel
`shards` never runs out. -/
def jumphashLoop (shards : Nat) : Nat → Nat → Nat → Nat
  | _, j, 0 => j
  | key, j, fuel + 1 =>
    let s := jumpStep key j
    if s.2 < shards then jumphashLoop shards s.1 s.2 fuel else j

/-- `jumphash` (part_005 lines 176-186): `b = -1; j = 0`, then the loop;
with at least one shard `b` becomes `0` on the first turn. -/
def jumphash (key : Nat) (shards : Nat) : Int :=
  if shards = 0 then -1 else (jumphashLoop shards key 0 shards : Int)

/-- Every loop turn strictly increases `j`: the divisor is at most
`2^31`, so `(j+1) * 2^31 / divisor ≥ j + 1`. -/
theorem jumpStep_ge (key j : Nat) : j + 1 ≤ (jumpStep key j).2 := by
  unfold jumpStep
  have hdiv : (key * 2862933555777941757 + 1) % 2 ^ 64 / 2 ^ 33 + 1 ≤ 2 ^ 31 := by
    have h1 : (key * 2862933555777941757 + 1) % 2 ^ 64 < 2 ^ 64 :=
      Nat.mod_lt _ (by norm_num)
    have : (key * 2862933555777941757 + 1) % 2 ^ 64 / 2 ^ 33 < 2 ^ 31 := by
      apply Nat.div_lt_of_lt_mul
      calc (key * 2862933555777941757 + 1) % 2 ^ 64 < 2 ^ 64 := h1
        _ = 2 ^ 33 * 2 ^ 31 := by norm_num
    omega
  calc j + 1 = (j + 1) * 2 ^ 31 / 2 ^ 31 := by
        rw [Nat.mul_div_cancel _ (by norm_num)]
    _ ≤ _ := Nat.div_le_div_left hdiv (by omega)

/-- Fuel adequacy: as long as the fuel covers `shards - j`, its exact
value does not matter, so fuel `shards` (with initial `j = 0`) computes
the untruncated loop. -/
theorem jumphashLoop_fuel_irrelevant (shards : Nat) :
    ∀ f g j key, shards ≤ j + f → shards ≤ j + g →
      jumphashLoop shards key j f = jumphashLoop shards key j g := by
  intro f
  induction f with
  | zero =>
    intro g j key hf hg
    cases g with
    | zero => rfl
    | succ g' =>
      have hstep := jumpStep_ge key j
      simp only [jumphashLoop]
      rw [if_neg (by omega)]
  | succ f' ih =>
    intro g j key hf hg
    cases g with
    | zero =>
      have hstep := jumpStep_ge key j
      simp only [jumphashLoop]
      rw [if_neg (by omega)]
    | succ g' =>
      have hstep := jumpStep_ge key j
      simp only [jumphashLoop]
      by_cases hlt : (jumpStep key j).2 < shards
      · rw [if_pos hlt, if_pos hlt]
        exact ih g' _ _ (by omega) (by omega)
      · rw [if_neg hlt, if_neg hlt]

/-- The loop keeps `j < shards`, so the returned bucket is below the
shard count. -/
theorem jumphashLoop_lt (shards : Nat) :
    ∀ fuel j key, j < shards → jumphashLoop shards key j fuel < shards := by
  intro fuel
  induction fuel with
  | zero => intro j key hj; simpa [jumphashLoop] using hj
  | succ f ih =>
    intro j key hj
    simp only [jumphashLoop]
    by_cases hlt : (jumpStep key j).2 < shards
    · rw [if_pos hlt]; exact ih _ _ hlt
    · rw [if_neg hlt]; exact hj

/-- With at least one shard, `jumphash` lands in `[0, shards)`. -/
theorem jumphash_mem_range (key shards : Nat) (h : 1 ≤ shards) :
    0 ≤ jumphash key shards ∧ jumphash key shards < (shards : Int) := by
  have hs : shards ≠ 0 := by omega
  constructor
  · simp [jumphash, hs]
  · simpa [jumphash, hs] using jumphashLoop_lt shards shards 0 key (by omega)

/-- The chunking loop of `cmap.hash` (part_005 lines 152-161) for keys
longer than 16 bytes: XOR together `memhash` of each 16-byte (or final
shorter) chunk.  Each chunk `key[start:end]` is itself a string header
whose data pointer is `addr + start` and whose length is `end - start`,
and `memhash` again receives the address of that *header*. -/
def chunkLoop (memhash : List Nat → Nat) (addr keyLen : Nat) (hash start : Nat) : Nat :=
  if h : start < keyLen then
    let e := min (start + 16) keyLen
    let clen := e - start
    let hash' := hash ^^^ memhash (headerRegion (addr + start) clen clen) % 2 ^ 64
    chunkLoop memhash addr keyLen hash' e
  else hash
termination_by keyLen - start
decreasing_by omega

/-- `cmap.hash` (part_005 lines 147-166): hash the key — passing the
address of the string header to `memhash` — and map the result to a
shard index with `jumphash`.  `memhash` is the external runtime hash,
taken as an arbitrary function of the byte region it reads. -/
def cmapHash (memhash : List Nat → Nat) (numShards : Nat) (key : GoString) : Int :=
  let keyLen := key.content.length
  let hash :=
    if keyLen ≤ 16 then
      memhash (headerRegion key.addr keyLen keyLen) % 2 ^ 64
    else
      chunkLoop memhash key.addr keyLen 0 0
  jumphash hash numShards

/-! ### Concrete states used by the claim theorems and witnesses -/

/-- A plain parameter block (write TTL 5, capacity 10, no loader,
refresh disabled); already in defaulted form. -/
def plainParams : Params :=
  { loader := none, expireAfterWrite := 5, expireAfterRead := 0,
    maximumEntries := 10, evictionPoolSize := 8, evictionSampleSize := 32,
    numShards := 16, gracefulRefresh := false }

/-- An empty cache with a freshly allocated (all-nil) 8-slot pool. -/
def plainState : CacheState :=
  { params := plainParams, entries := [], refreshes := none,
    evictionPool := List.replicate 8 ⟨"", none⟩, evictionPoolTop := 0 }

/-- The `plainState` cache right after `Set "k" 7` at time 0. -/
def plainAfterSet : CacheState :=
  { plainState with entries := [("k", ⟨GoValue.intV 7, 5, 0, false, none⟩)] }

def c1StateNonEmpty : CacheState :=
  { plainState with entries := [("a", ⟨GoValue.intV 1, 0, 0, false, none⟩)] }

def c2State : CacheState :=
  { plainState with entries := [("k", ⟨GoValue.intV 42, 10, 0, false, none⟩)] }

def c3Load : LoaderFn := fun _ => (GoValue.intV 2, none)

def c3Entry : cacheEntry := ⟨GoValue.intV 1, 2, 1, true, none⟩

def c3State : CacheState :=
  { params := { plainParams with loader := some c3Load },
    entries := [("k", c3Entry)], refreshes := some ⟨[], false⟩,
    evictionPool := List.replicate 8 ⟨"", none⟩, evictionPoolTop := 0 }

def c4Load : LoaderFn := fun _ => (GoValue.nil, some "boom")

def c4Entry : cacheEntry := ⟨GoValue.strV "old", 2, 1, true, none⟩

def c4State : CacheState :=
  { params := { plainParams with loader := some c4Load },
    entries := [("k", c4Entry)], refreshes := some ⟨[], false⟩,
    evictionPool := List.replicate 8 ⟨"", none⟩, evictionPoolTop := 0 }

/-- `plainState` with refresh enabled (an open, empty channel). -/
def c5Base : CacheState := { plainState with refreshes := some ⟨[], false⟩ }

/-- `c5Base` right after `Set "k" 7` at time 0 (TTL 5, so expiration 5). -/
def c5After : CacheState :=
  { c5Base with entries := [("k", ⟨GoValue.intV 7, 5, 0, false, none⟩)] }

def c6SampleEntry : cacheEntry := ⟨GoValue.nil, 0, 5, false, none⟩

def c6Sample : evictableEntry := ⟨"s", some c6SampleEntry⟩

def c6EntryOld : cacheEntry := ⟨GoValue.nil, 0, 10, false, none⟩

def c6EntryNew : cacheEntry := ⟨GoValue.nil, 0, 20, false, none⟩

/-- A full pool: slot 0 was last used at 10, slot 1 (the most recently
used occupant) at 20. -/
def c6Pool : List evictableEntry := [⟨"x", some c6EntryOld⟩, ⟨"y", some c6EntryNew⟩]

def c9ErrLoad : LoaderFn := fun _ => (GoValue.nil, some "load failed")

def c9OkLoad : LoaderFn := fun _ => (GoValue.intV 3, none)

def c9ErrState : CacheState :=
  { plainState with params := { plainParams with loader := some c9ErrLoad } }

def c9OkState : CacheState :=
  { plainState with params := { plainParams with loader := some c9OkLoad } }

def c10ParamsOn : Params :=
  { plainParams with gracefulRefresh := true, loader := some c9OkLoad }

def c8Memhash : List Nat → Nat := fun bs => bs.foldl (fun a b => a * 256 + b) 1

/-- The one-byte key "a" whose backing bytes live at address 0. -/
def c8Key1 : GoString := ⟨0, [97]⟩

/-- The same one-byte key "a", but backed at address 5. -/
def c8Key2 : GoString := ⟨5, [97]⟩

/-! ### The claims -/

/-- Claim C1 (code bug).  The claim says `removeLRU` removes exactly one
entry from a non-empty map and is a no-op on an empty map.  The code
instead panics on every call: the victim-selection scan compares each
pool slot against `oldest`, whose zero value holds a nil `*cacheEntry`,
and dereferences that nil pointer on the very first slot (for an empty
map the first pool slot itself also still holds its zero-value nil
pointer).  Shown here by evaluating `removeLRU` on a one-entry map and
on an empty map, both with the freshly allocated pool. -/
theorem c1_removeLRU_always_faults :
    removeLRU c1StateNonEmpty = .error .nilDeref ∧
    removeLRU plainState = .error .nilDeref :=
  ⟨rfl, rfl⟩

/-- Claim C2 (corrected), counterexample.  A successful `Get` hit at
time 5 on an entry with `lastUsed = 0` returns the cached value but
leaves the state — including the entry's `lastUsed` — completely
unchanged: `Get` never writes `lastUsed`, contradicting the claim that
every successful read updates it. -/
theorem c2_counterexample :
    cacheGet c2State "k" 5 = .ok (GoValue.intV 42, none, c2State, 0) ∧
    mapGet c2State.entries "k" = some ⟨GoValue.intV 42, 10, 0, false, none⟩ ∧
    (0 : Int) ≠ 5 :=
  ⟨rfl, rfl, by decide⟩

/-- Claim C2 (corrected), amended: `Set` stamps the entry with
`lastUsed = now` (and `expiration = now + ExpireAfterWrite`, cleared
refresh state), but a fresh (unexpired, error-free) `Get` hit returns
the cached value with the cache state entirely unchanged — reads do not
update `lastUsed`; it records the last write or miss-path load. -/
theorem c2_lastUsed_on_write_not_on_read :
    (∀ (c : CacheState) (k : String) (v : GoValue) (now : Int) (r : Option GoErr) (c' : CacheState),
      cacheSet c k v now = .ok (r, c') →
      mapGet c'.entries k = some ⟨v, now + c.params.expireAfterWrite, now, false, none⟩) ∧
    (∀ (c : CacheState) (k : String) (now : Int) (e : cacheEntry),
      mapGet c.entries k = some e → e.refreshError = none → ¬ e.expiration < now →
      cacheGet c k now = .ok (e.value, none, c, 0)) :=
  ⟨cacheSet_ok_lookup, cacheGet_hit_fresh⟩

/-- Witness for the amended C2 theorem at concrete inputs. -/
theorem c2_witness :
    mapGet plainAfterSet.entries "k" = some ⟨GoValue.intV 7, 5, 0, false, none⟩ ∧
    cacheGet c2State "k" 3 = .ok (GoValue.intV 42, none, c2State, 0) :=
  ⟨c2_lastUsed_on_write_not_on_read.1 plainState "k" (GoValue.intV 7) 0 none plainAfterSet rfl,
   c2_lastUsed_on_write_not_on_read.2 c2State "k" 3 ⟨GoValue.intV 42, 10, 0, false, none⟩
     rfl rfl (by decide)⟩

/-- Claim C3 (corrected), counterexample.  The success path of the refresh worker
path replaces the value and clears the refresh state, but never touches
`lastUsed`/`expiration`: an entry with `lastUsed = 1`, `expiration = 2`
reloaded (at any later time, e.g. 9) keeps timestamps 1 and 2, so they
are not "refreshed to the time of the reload" as claimed. -/
theorem c3_counterexample :
    refreshStep c3Load c3State "k" =
      { c3State with entries := [("k", ⟨GoValue.intV 2, 2, 1, false, none⟩)] } ∧
    (1 : Int) ≠ 9 :=
  ⟨rfl, by decide⟩

/-- Claim C3 (corrected), amended: when the worker dequeues an existing
entry and the load succeeds, the entry holds the new value with
`refreshing = false` and `refreshError = nil`, while `lastUsed` and
`expiration` are left unchanged (the worker never calls
`updateTimestamps`). -/
theorem c3_refresh_success_no_timestamp (load : LoaderFn) (c : CacheState) (k : String)
    (e : cacheEntry) (v : GoValue)
    (he : mapGet c.entries k = some e) (hload : load k = (v, none)) :
    refreshStep load c k = { c with entries := mapSet c.entries k { e with value := v, refreshing := false, refreshError := none } } ∧
    ({ e with value := v, refreshing := false, refreshError := none } : cacheEntry).lastUsed = e.lastUsed ∧
    ({ e with value := v, refreshing := false, refreshError := none } : cacheEntry).expiration = e.expiration := by
  refine ⟨?_, rfl, rfl⟩
  simp [refreshStep, he, hload]

/-- Witness for the amended C3 theorem at concrete inputs. -/
theorem c3_witness :
    refreshStep c3Load c3State "k" = { c3State with entries := mapSet c3State.entries "k" { c3Entry with value := GoValue.intV 2, refreshing := false, refreshError := none } } ∧
    ({ c3Entry with value := GoValue.intV 2, refreshing := false, refreshError := none } : cacheEntry).lastUsed = c3Entry.lastUsed :=
  ⟨(c3_refresh_success_no_timestamp c3Load c3State "k" c3Entry (GoValue.intV 2) rfl rfl).1,
   (c3_refresh_success_no_timestamp c3Load c3State "k" c3Entry (GoValue.intV 2) rfl rfl).2.1⟩

/-- Claim C4 (confirmed).  When the load run by the worker for `k` fails with
`err`, the entry keeps its value, keeps `refreshing = true`, and gains
`refreshError = err`; the next `Get k` (at any time) deletes the entry
and returns the last known value together with `err`. -/
theorem c4_refresh_failure_surfaced (c : CacheState) (k : String) (e : cacheEntry)
    (load : LoaderFn) (v : GoValue) (err : GoErr)
    (he : mapGet c.entries k = some e) (hrf : e.refreshing = true)
    (hload : load k = (v, some err)) :
    mapGet (refreshStep load c k).entries k = some { e with refreshError := some err } ∧
    ({ e with refreshError := some err } : cacheEntry).refreshing = true ∧
    ({ e with refreshError := some err } : cacheEntry).value = e.value ∧
    ∀ now, cacheGet (refreshStep load c k) k now =
      .ok (e.value, some err, { refreshStep load c k with entries := mapDel (refreshStep load c k).entries k }, 0) := by
  have hstep : refreshStep load c k =
      { c with entries := mapSet c.entries k { e with refreshError := some err } } := by
    simp [refreshStep, he, hload]
  have he' : mapGet (refreshStep load c k).entries k = some { e with refreshError := some err } := by
    rw [hstep]; exact mapGet_mapSet_self ..
  refine ⟨he', by simpa using hrf, rfl, ?_⟩
  intro now
  exact cacheGet_hit_refreshError (refreshStep load c k) k now
    { e with refreshError := some err } err he' rfl

/-- Witness for C4 at concrete inputs. -/
theorem c4_witness :
    mapGet (refreshStep c4Load c4State "k").entries "k" = some ⟨GoValue.strV "old", 2, 1, true, some "boom"⟩ ∧
    cacheGet (refreshStep c4Load c4State "k") "k" 3 = .ok (GoValue.strV "old", some "boom", { refreshStep c4Load c4State "k" with entries := mapDel (refreshStep c4Load c4State "k").entries "k" }, 0) :=
  ⟨(c4_refresh_failure_surfaced c4State "k" c4Entry c4Load GoValue.nil "boom" rfl rfl rfl).1,
   (c4_refresh_failure_surfaced c4State "k" c4Entry c4Load GoValue.nil "boom" rfl rfl rfl).2.2.2 3⟩

/-- Claim C5 (corrected), counterexample.  An entry written at time 0
with `ExpireAfterWrite = 5` read at exactly time 5 (= write-time + d) is
still treated as fresh: the `Get` returns the value and leaves the state
untouched (no deletion, nothing enqueued on the open refresh channel),
contradicting "the first Get at or after write-time + d treats it as
stale".  Staleness requires `expiration.Before(now)`, i.e. strictly
after. -/
theorem c5_counterexample :
    cacheSet c5Base "k" (GoValue.intV 7) 0 = .ok (none, c5After) ∧
    cacheGet c5After "k" 5 = .ok (GoValue.intV 7, none, c5After, 0) :=
  ⟨rfl, rfl⟩

/-- Claim C5 (corrected), amended: after a `Set` at time `w` with
`ExpireAfterWrite = d`, every `Get` at `t ≤ w + d` is fresh (value, no
error, state unchanged); the first `Get` strictly after `w + d` returns
the stale value and — refresh disabled — deletes the entry, or —
refresh enabled, channel open — marks the entry refreshing and enqueues
the key. -/
theorem c5_ttl_strict_boundary (c c' : CacheState) (k : String) (v : GoValue) (w d t : Int)
    (hd : c.params.expireAfterWrite = d)
    (hset : cacheSet c k v w = .ok (none, c')) :
    (t ≤ w + d → cacheGet c' k t = .ok (v, none, c', 0)) ∧
    (w + d < t → c'.refreshes = none →
      cacheGet c' k t = .ok (v, none, { c' with entries := mapDel c'.entries k }, 0)) ∧
    (∀ ch, w + d < t → c'.refreshes = some ch → ch.closed = false →
      cacheGet c' k t = .ok (v, none, { c' with entries := mapSet c'.entries k ⟨v, w + d, w, true, none⟩, refreshes := some ⟨ch.buf ++ [k], false⟩ }, 0)) := by
  have he : mapGet c'.entries k = some ⟨v, w + d, w, false, none⟩ := by
    have h := cacheSet_ok_lookup c k v w none c' hset
    rwa [hd] at h
  refine ⟨?_, ?_, ?_⟩
  · intro ht
    exact cacheGet_hit_fresh c' k t _ he rfl (by simp; omega)
  · intro ht hr
    exact cacheGet_hit_expired_norefresh c' k t _ he rfl (by simpa using ht) hr
  · intro ch ht hr hcl
    exact cacheGet_hit_expired_enqueue c' k t _ ch he rfl (by simpa using ht) hr hcl rfl

/-- Witness for the amended C5 theorem: the concrete write at 0 with TTL 5
read at 5 (fresh) and at 9 (stale: marked refreshing and enqueued). -/
theorem c5_witness :
    cacheGet c5After "k" 4 = .ok (GoValue.intV 7, none, c5After, 0) ∧
    cacheGet c5After "k" 9 = .ok (GoValue.intV 7, none, { c5After with entries := mapSet c5After.entries "k" ⟨GoValue.intV 7, 5, 0, true, none⟩, refreshes := some ⟨[] ++ ["k"], false⟩ }, 0) :=
  ⟨(c5_ttl_strict_boundary c5Base c5After "k" (GoValue.intV 7) 0 5 4 rfl rfl).1 (by decide),
   (c5_ttl_strict_boundary c5Base c5After "k" (GoValue.intV 7) 0 5 9 rfl rfl).2.2 ⟨[], false⟩
     (by decide) rfl rfl⟩

/-- Claim C6 (corrected), counterexample.  Pool full with occupants last
used at 10 ("x") and 20 ("y"); a new sample last used at 5 is older than
both.  The claim says the sample must replace the most-recently-used
occupant ("y", lastUsed 20) — the code instead replaces the *first*
occupant that is newer than the sample ("x", lastUsed 10), which is not
the most-recently-used one (10 < 20). -/
theorem c6_counterexample :
    poolReplaceAux c6Pool c6Sample = .ok [c6Sample, ⟨"y", some c6EntryNew⟩] ∧
    c6EntryOld.lastUsed < c6EntryNew.lastUsed :=
  ⟨rfl, by decide⟩

/-- The replacement policy the code actually implements, stated in the
words of the amended claim: scan the pool in slot order and replace the
*first* occupant whose entry was last used more recently than the
sample; keep the pool unchanged when no occupant is newer. -/
def replaceFirstNewerSpec (pool : List evictableEntry) (s : evictableEntry)
    (sv : cacheEntry) : List evictableEntry :=
  match pool with
  | [] => []
  | e :: rest =>
    match e.value with
    | none => e :: replaceFirstNewerSpec rest s sv
    | some ev =>
      if ev.lastUsed > sv.lastUsed then s :: rest
      else e :: replaceFirstNewerSpec rest s sv

/-- Claim C6 (corrected), amended: with a full pool of live entries, a
new sample replaces the first pool occupant (lowest slot index) whose
`lastUsed` is strictly newer than that of the sample — not the
most-recently-used occupant — and is discarded when no occupant is
newer; hence the pool need not hold the oldest samples seen so far. -/
theorem c6_replaces_first_newer_occupant (pool : List evictableEntry)
    (s : evictableEntry) (sv : cacheEntry)
    (hs : s.value = some sv) (hp : ∀ e ∈ pool, e.value ≠ none) :
    poolReplaceAux pool s = .ok (replaceFirstNewerSpec pool s sv) := by
  induction pool with
  | nil => simp [poolReplaceAux, replaceFirstNewerSpec]
  | cons e rest ih =>
    have hev : e.value ≠ none := hp e (by simp)
    obtain ⟨ev, he⟩ : ∃ ev, e.value = some ev := by
      cases hval : e.value with
      | none => exact absurd hval hev
      | some ev => exact ⟨ev, rfl⟩
    have hrest : ∀ x ∈ rest, x.value ≠ none := fun x hx => hp x (by simp [hx])
    by_cases hcmp : ev.lastUsed > sv.lastUsed
    · simp [poolReplaceAux, replaceFirstNewerSpec, he, hs, hcmp]
    · simp [poolReplaceAux, replaceFirstNewerSpec, he, hs, hcmp, ih hrest]

/-- Witness for the amended C6 theorem at the concrete full pool. -/
theorem c6_witness :
    c6Sample.value = some c6SampleEntry ∧
    poolReplaceAux c6Pool c6Sample = .ok (replaceFirstNewerSpec c6Pool c6Sample c6SampleEntry) :=
  ⟨rfl, c6_replaces_first_newer_occupant c6Pool c6Sample c6SampleEntry rfl (by decide)⟩

/-- Claim C7 (code bug).  The claim says eviction keeps pool
bookkeeping consistent and in bounds across every call.  In fact no
call ever completes a pass: either the sampling pass faults, or the
victim-selection scan dereferences the nil zero-valued `oldest` (and
with an empty pool slice the compaction read
`evictionPool[evictionPoolTop]` is out of range), so `removeLRU` always
panics before the bookkeeping updates are reached; moreover the
compaction line as written reads index `evictionPoolTop`, which equals
`len(evictionPool)` whenever the pool is full. -/
theorem c7_eviction_never_completes (c : CacheState) : ∃ f, removeLRU c = .error f :=
  removeLRU_isError c

/-- Claim C8 (code bug).  `cmap.hash` passes `unsafe.Pointer(&key)` —
the address of the string *header* — to `memhash`, so the bytes hashed
are the data pointer and length, not the key's content.  Evaluating the
embedded routing function with a concrete content-sensitive `memhash`:
the same one-byte key "a" backed at address 0 routes to a different
shard (of 16) than at address 5, contradicting "two invocations with
equal key strings always yield the same shard index". -/
theorem c8_routing_depends_on_address :
    c8Key1.content = c8Key2.content ∧
    cmapHash c8Memhash 16 c8Key1 ≠ cmapHash c8Memhash 16 c8Key2 :=
  ⟨rfl, by decide⟩

/-- Claim C9 (confirmed).  On a miss: with no loader, `Get` returns
(nil, nil) and leaves the cache unchanged; with a loader, `Load` is
called exactly once (the counter is the number of `Load` invocations),
and on a load error that error is returned and nothing is inserted
(state unchanged); on load success below capacity the value is inserted
with fresh timestamps. -/
theorem c9_miss_semantics (c : CacheState) (k : String) (now : Int)
    (he : mapGet c.entries k = none) :
    (c.params.loader = none → cacheGet c k now = .ok (GoValue.nil, none, c, 0)) ∧
    (∀ load v err, c.params.loader = some load → load k = (v, some err) →
      cacheGet c k now = .ok (GoValue.intV 0, some err, c, 1)) ∧
    (∀ load v, c.params.loader = some load → load k = (v, none) →
      c.entries.length < c.params.maximumEntries →
      cacheGet c k now = .ok (v, none, { c with entries := mapSet c.entries k (updateTimestamps ⟨v, 0, 0, false, none⟩ c.params.expireAfterWrite now) }, 1)) :=
  ⟨fun hl => cacheGet_miss_noLoader c k now he hl,
   fun load v err hl hload => cacheGet_miss_loadError c k now load v err he hl hload,
   fun load v hl hload hcap => cacheGet_miss_loadOk c k now load v he hl hload hcap⟩

/-- Witness for C9 at concrete inputs: no-loader miss, failing-loader
miss, and successful-loader miss. -/
theorem c9_witness :
    cacheGet plainState "q" 0 = .ok (GoValue.nil, none, plainState, 0) ∧
    cacheGet c9ErrState "q" 0 = .ok (GoValue.intV 0, some "load failed", c9ErrState, 1) ∧
    cacheGet c9OkState "q" 2 = .ok (GoValue.intV 3, none, { c9OkState with entries := mapSet c9OkState.entries "q" (updateTimestamps ⟨GoValue.intV 3, 0, 0, false, none⟩ c9OkState.params.expireAfterWrite 2) }, 1) :=
  ⟨(c9_miss_semantics plainState "q" 0 rfl).1 rfl,
   (c9_miss_semantics c9ErrState "q" 0 rfl).2.1 c9ErrLoad GoValue.nil "load failed" rfl rfl,
   (c9_miss_semantics c9OkState "q" 2 rfl).2.2 c9OkLoad (GoValue.intV 3) rfl rfl (by decide)⟩

/-- Claim C10 (confirmed).  `StopRefresh` unconditionally closes the
refresh channel: with `GracefulRefresh = true` the channel exists, the
close succeeds, and the consuming loop of `RunRefresh` processes what it
received and returns without error; with `GracefulRefresh = false`
`NewCache` leaves the channel nil, and `StopRefresh` faults (close of a
nil channel) instead of being a no-op. -/
theorem c10_stopRefresh_closes_unconditionally (p : Params) :
    (p.gracefulRefresh = false →
      (newCache p).refreshes = none ∧
      stopRefresh (newCache p) = .error .closeNilChannel) ∧
    (p.gracefulRefresh = true →
      (newCache p).refreshes = some ⟨[], false⟩ ∧
      stopRefresh (newCache p) = .ok { newCache p with refreshes := some ⟨[], true⟩ } ∧
      ∀ load received, p.loader = some load →
        (runRefresh { newCache p with refreshes := some ⟨[], true⟩ } received).1 = none) := by
  have hg : (defaultedParams p).gracefulRefresh = p.gracefulRefresh := by
    simp [defaultedParams]
  have hl : (defaultedParams p).loader = p.loader := by
    simp [defaultedParams]
  constructor
  · intro h
    constructor
    · simp [newCache, hg, h]
    · simp [stopRefresh, newCache, hg, h]
  · intro h
    refine ⟨by simp [newCache, hg, h], by simp [stopRefresh, newCache, hg, h], ?_⟩
    intro load received hload
    simp [runRefresh, newCache, hl, hload]

/-- Witness for C10 at concrete parameter blocks (refresh off and on). -/
theorem c10_witness :
    (newCache plainParams).refreshes = none ∧
    stopRefresh (newCache plainParams) = .error .closeNilChannel ∧
    (newCache c10ParamsOn).refreshes = some ⟨[], false⟩ ∧
    stopRefresh (newCache c10ParamsOn) = .ok { newCache c10ParamsOn with refreshes := some ⟨[], true⟩ } ∧
    (runRefresh { newCache c10ParamsOn with refreshes := some ⟨[], true⟩ } ["k"]).1 = none :=
  ⟨((c10_stopRefresh_closes_unconditionally plainParams).1 rfl).1,
   ((c10_stopRefresh_closes_unconditionally plainParams).1 rfl).2,
   ((c10_stopRefresh_closes_unconditionally c10ParamsOn).2 rfl).1,
   ((c10_stopRefresh_closes_unconditionally c10ParamsOn).2 rfl).2.1,
   ((c10_stopRefresh_closes_unconditionally c10ParamsOn).2 rfl).2.2 c9OkLoad ["k"] rfl⟩

end LCache
